import Mathlib

/-!
Verification of the IPv6 address classification engine of `src/ipv6decode.py`
(repository `efahl/tools`).

The embedding models:
  * the Python `ipaddress` primitives the tool relies on (`IPv6Interface` /
    `IPv6Network` parsing, compressed and exploded rendering, containment),
    restricted to the behaviour the tool exercises;
  * the Allocation Table (`Block`, `B`, `allocations`, `add_new_allocation`,
    `in_allocations`) and its sort order;
  * the Containment Resolver (the `for block in allocations` filter loop);
  * the Dynamic Allocation Augmenter (`add_org`), with the whois collaborator
    as a function parameter and recursion depth made explicit by fuel;
  * the Bit-field Decomposer fragments (ULA Global/Subnet ID slices, embedded
    IPv4, EUI-64 MAC recovery) and the per-address main loop.

Machine integers are `Nat` with explicit `% 2 ^ w`; fallible operations return
`Except PyErr`; non-structural recursion (the whois parent walk) takes fuel and
returns `none` when the fuel is exhausted.
-/

namespace IPv6Decode

/-- Errors raised by the Python `ipaddress` primitives used by the tool:
`AddressValueError`, `NetmaskValueError` (both subclasses of `ValueError`) and
plain `ValueError` (the strict host-bits check).  The payload is the message
text (modelled approximately; only the constructor matters to control flow). -/
inductive PyErr where
  | addressValueError (msg : String)
  | netmaskValueError (msg : String)
  | valueError (msg : String)
deriving DecidableEq

def PyErr.text : PyErr → String
  | .addressValueError m => m
  | .netmaskValueError m => m
  | .valueError m => m

/-! ### Character helpers -/

def isHexDigitCh (c : Char) : Bool :=
  let n := c.toNat
  decide ((48 ≤ n ∧ n ≤ 57) ∨ (97 ≤ n ∧ n ≤ 102) ∨ (65 ≤ n ∧ n ≤ 70))

def isDecDigitCh (c : Char) : Bool :=
  let n := c.toNat
  decide (48 ≤ n ∧ n ≤ 57)

def hexValCh (c : Char) : Nat :=
  let n := c.toNat
  if 48 ≤ n ∧ n ≤ 57 then n - 48
  else if 97 ≤ n ∧ n ≤ 102 then n - 87
  else if 65 ≤ n ∧ n ≤ 70 then n - 55
  else 0

/-- Model of `str.lower` restricted to ASCII (the only characters that occur in the
CIDR strings this program compares). -/
def pyLowerCh (c : Char) : Char :=
  let n := c.toNat
  if 65 ≤ n ∧ n ≤ 90 then Char.ofNat (n + 32) else c

def pyLower (s : String) : String := String.mk (s.data.map pyLowerCh)

/-- Model of Python `str.split` with a one-character separator on character
lists (splitting the empty text yields one empty part). -/
def splitOnChar (sep : Char) : List Char → List (List Char)
  | [] => [[]]
  | c :: cs =>
    let r := splitOnChar sep cs
    if c == sep then [] :: r
    else
      match r with
      | [] => [[c]]
      | h :: t => (c :: h) :: t

/-- Split at the first occurrence of `sep` (Python `str.partition`), if any. -/
def splitFirst (sep : Char) : List Char → Option (List Char × List Char)
  | [] => none
  | c :: cs =>
    if c == sep then some ([], cs)
    else (splitFirst sep cs).map (fun p => (c :: p.1, p.2))

/-! ### The Python `ipaddress` v6 text parser

A model of CPython `ipaddress._BaseV6._ip_int_from_string` together with the
`IPv6Interface` / `IPv6Network` wrappers.  Every failure inside the address
text raises `AddressValueError`; an invalid prefix length raises
`NetmaskValueError`; the strict host-bits check of `IPv6Network` raises a
plain `ValueError`. -/

/-- Model of `_parse_hextet`: only hex digits, at most 4 characters,
non-empty (the int conversion of an empty text raises). -/
def parseHextet (l : List Char) : Except String Nat :=
  if ¬ l.all isHexDigitCh then .error "Only hex digits permitted"
  else if l.length > 4 then .error "At most 4 characters permitted"
  else if l.isEmpty then .error "invalid literal for int() with base 16"
  else .ok (l.foldl (fun acc c => 16 * acc + hexValCh c) 0)

/-- Model of `IPv4Address._parse_octet`. -/
def parseOctet (l : List Char) : Except String Nat :=
  if l.isEmpty then .error "Empty octet not permitted"
  else if ¬ l.all isDecDigitCh then .error "Only decimal digits permitted"
  else if l.length > 3 then .error "At most 3 characters permitted"
  else
    let v := l.foldl (fun acc c => 10 * acc + (c.toNat - 48)) 0
    if v > 255 then .error "Octet greater than 255 not permitted"
    else if l.length > 1 ∧ l.headD '0' == '0' then .error "Leading zeros are not permitted"
    else .ok v

/-- Dotted-quad parse used for an embedded IPv4 suffix. -/
def parseIPv4 (l : List Char) : Except String Nat := do
  let octs := splitOnChar '.' l
  if octs.length ≠ 4 then .error "Expected 4 octets"
  else
    octs.foldlM (fun acc o => do
      let v ← parseOctet o
      pure (256 * acc + v)) 0

def foldHextets (parts : List (List Char)) (init : Nat) : Except String Nat :=
  parts.foldlM (fun acc p => do
    let v ← parseHextet p
    pure (acc * 65536 + v)) init

/-- Model of `_ip_int_from_string`, the 128-bit value of an IPv6 address text. -/
def ipIntFromString (s : List Char) : Except String Nat :=
  if s.isEmpty then .error "Address cannot be empty" else
  let parts := splitOnChar ':' s
  if parts.length < 3 then .error "At least 3 parts expected" else do
  let parts ←
    if (parts.getLastD []).contains '.' then do
      let v4 ← parseIPv4 (parts.getLastD [])
      pure (parts.dropLast ++ [Nat.toDigits 16 (v4 / 65536), Nat.toDigits 16 (v4 % 65536)])
    else pure parts
  if parts.length > 9 then .error "At most 8 colons permitted" else
  let inner := (parts.drop 1).dropLast
  if 2 ≤ inner.countP (·.isEmpty) then .error "At most one :: permitted" else
  match inner.findIdx? (·.isEmpty) with
  | some j =>
    let si := j + 1
    let partsHi0 := si
    let partsLo0 := parts.length - si - 1
    if (parts.headD []).isEmpty ∧ partsHi0 ≠ 1 then
      .error "Leading colon only permitted as part of ::"
    else
    let partsHi := if (parts.headD []).isEmpty then partsHi0 - 1 else partsHi0
    if (parts.getLastD []).isEmpty ∧ partsLo0 ≠ 1 then
      .error "Trailing colon only permitted as part of ::"
    else
    let partsLo := if (parts.getLastD []).isEmpty then partsLo0 - 1 else partsLo0
    if 8 ≤ partsHi + partsLo then .error "Expected at most 7 other parts with ::"
    else do
      let hi ← foldHextets (parts.take partsHi) 0
      let lo ← foldHextets (parts.drop (parts.length - partsLo)) 0
      pure (hi * 2 ^ (16 * (8 - partsHi)) + lo)
  | none =>
    if parts.length ≠ 8 then .error "Exactly 8 parts expected without ::"
    else if (parts.headD []).isEmpty then .error "Leading colon only permitted as part of ::"
    else if (parts.getLastD []).isEmpty then .error "Trailing colon only permitted as part of ::"
    else foldHextets parts 0

/-- Model of the `IPv6Address` text parse including the optional `%scope` suffix. -/
def parseV6Addr (s : List Char) : Except PyErr Nat :=
  let core := fun (a : List Char) =>
    match ipIntFromString a with
    | .error m => .error (PyErr.addressValueError m)
    | .ok v => .ok v
  match splitFirst '%' s with
  | some (addr, scope) =>
    if scope.isEmpty ∨ scope.contains '%' then
      .error (.addressValueError "Invalid IPv6 address with percent")
    else core addr
  | none => core s

/-- Model of `_prefix_from_prefix_string`: decimal digits, value at most 128;
anything else is a `NetmaskValueError`. -/
def parsePrefixlen (p : List Char) : Except PyErr Nat :=
  if p.isEmpty ∨ ¬ p.all isDecDigitCh then .error (.netmaskValueError "is not a valid netmask")
  else
    let v := p.foldl (fun acc c => 10 * acc + (c.toNat - 48)) 0
    if v ≤ 128 then .ok v else .error (.netmaskValueError "is not a valid netmask")

structure PyItf where
  ip : Nat
  plen : Nat
deriving DecidableEq

/-- Python `c in s` for a single character. -/
def hasChar (sep : Char) : List Char → Bool
  | [] => false
  | c :: cs => c == sep || hasChar sep cs

/-- Python `s.startswith(pre)`. -/
def pyStartsWith (s pre : String) : Bool := pre.data.isPrefixOf s.data

/-- Model of `ipaddress.IPv6Interface`: split on slash (at most one), parse the
address part, then the prefix length (default 128). -/
def pyParseItf (s : String) : Except PyErr PyItf :=
  match splitOnChar '/' s.data with
  | [a] => (parseV6Addr a).map (fun ip => ⟨ip, 128⟩)
  | [a, p] => do
    let ip ← parseV6Addr a
    let pl ← parsePrefixlen p
    pure ⟨ip, pl⟩
  | _ => .error (.addressValueError "Only one slash permitted")

/-- Model of `ipaddress.IPv6Network` with the default strict mode: as
`pyParseItf`, then reject host bits set below the prefix. -/
def pyParseNet (s : String) : Except PyErr PyItf := do
  let itf ← pyParseItf s
  if itf.ip % 2 ^ (128 - itf.plen) ≠ 0 then .error (.valueError "has host bits set")
  else pure itf

/-! ### Rendering: compressed (`str`), `with_prefixlen`, exploded -/

def groupsOf (ip : Nat) : List Nat :=
  [ip / 2 ^ 112 % 65536, ip / 2 ^ 96 % 65536, ip / 2 ^ 80 % 65536, ip / 2 ^ 64 % 65536,
   ip / 2 ^ 48 % 65536, ip / 2 ^ 32 % 65536, ip / 2 ^ 16 % 65536, ip % 65536]

/-- The leftmost longest run of zero hextets (start, length), as the scanning
loop of CPython `_string_from_ip_int`. -/
def bestZeroRunAux : List Nat → Nat → (Nat × Nat) → (Option Nat × Nat) → Nat × Nat
  | [], _, best, _ => best
  | g :: gs, idx, best, cur =>
    if g == 0 then
      let cs := match cur.1 with | none => idx | some s => s
      let cl := cur.2 + 1
      let best := if cl > best.2 then (cs, cl) else best
      bestZeroRunAux gs (idx + 1) best (some cs, cl)
    else
      bestZeroRunAux gs (idx + 1) best (none, 0)

def bestZeroRun (gs : List Nat) : Nat × Nat := bestZeroRunAux gs 0 (0, 0) (none, 0)

/-- Model of the compressed rendering of an address: hextets in `%x` form with the leftmost longest
zero-run of length at least 2 replaced by `::`. -/
def pyCompressed (ip : Nat) : String :=
  let gs := groupsOf ip
  let strs := gs.map (fun g => String.mk (Nat.toDigits 16 g))
  let br := bestZeroRun gs
  let parts :=
    if br.2 > 1 then
      let mid := strs.take br.1 ++ [""] ++ strs.drop (br.1 + br.2) ++
        (if br.1 + br.2 == 8 then [""] else [])
      if br.1 == 0 then "" :: mid else mid
    else strs
  String.intercalate ":" parts

/-- Model of `with_prefixlen` of a network or interface. -/
def pyWithPrefixlen (ip plen : Nat) : String := pyCompressed ip ++ "/" ++ Nat.repr plen

def hex4 (g : Nat) : List Char :=
  [Nat.digitChar (g / 4096 % 16), Nat.digitChar (g / 256 % 16),
   Nat.digitChar (g / 16 % 16), Nat.digitChar (g % 16)]

/-- The 39 characters of `exploded` (zero-padded hex groups joined by colons),
followed by `tail` (for an `IPv6Interface`, `exploded` appends `/prefixlen`;
the slices the tool takes never reach it). -/
def explodedChars (ip : Nat) (tail : List Char) : List Char :=
  hex4 (ip / 2 ^ 112 % 65536) ++ ':' ::
  (hex4 (ip / 2 ^ 96 % 65536) ++ ':' ::
  (hex4 (ip / 2 ^ 80 % 65536) ++ ':' ::
  (hex4 (ip / 2 ^ 64 % 65536) ++ ':' ::
  (hex4 (ip / 2 ^ 48 % 65536) ++ ':' ::
  (hex4 (ip / 2 ^ 32 % 65536) ++ ':' ::
  (hex4 (ip / 2 ^ 16 % 65536) ++ ':' ::
  (hex4 (ip % 65536) ++ tail)))))))

/-! ### The Allocation Table -/

/-- One positional argument of the `B` constructor after `addr` and `name`:
the three string fields (`rfc` and the two dates) or one of the five
tri-state registry flags (`True` / `False` / `None`). -/
inductive BArg where
  | str (s : String)
  | flag (b : Option Bool)
deriving DecidableEq

/-- The `Block` namedtuple, with `address_block` split into the network value
and the prefix length. -/
structure Block where
  network : Nat
  plen : Nat
  name : String
  rfc : BArg
  allocationDate : BArg
  terminationDate : BArg
  source : BArg
  destination : BArg
  forwardable : BArg
  globallyReachable : BArg
  reservedByProtocol : BArg
deriving DecidableEq

def defaultBlock : Block :=
  { network := 0, plen := 0, name := "", rfc := .str "", allocationDate := .str "",
    terminationDate := .str "", source := .flag none, destination := .flag none,
    forwardable := .flag none, globallyReachable := .flag none,
    reservedByProtocol := .flag none }

def bDefaults : List BArg :=
  [.str "", .str "", .str "", .flag none, .flag none, .flag none, .flag none, .flag none]

/-- The `B` helper: append `/128` when no CIDR is given, pad missing trailing
arguments with the defaults, build the `Block` from the strictly parsed
network.  Parse failures propagate as the Python exceptions would. -/
def B (addr : String) (name : String) (args : List BArg) : Except PyErr Block := do
  let addr := if hasChar '/' addr.data then addr else addr ++ "/128"
  let net ← pyParseNet addr
  let args := if args.length < 8 then args ++ bDefaults.drop args.length else args
  pure { network := net.ip, plen := net.plen, name := name,
         rfc := args.getD 0 (.str ""), allocationDate := args.getD 1 (.str ""),
         terminationDate := args.getD 2 (.str ""), source := args.getD 3 (.flag none),
         destination := args.getD 4 (.flag none), forwardable := args.getD 5 (.flag none),
         globallyReachable := args.getD 6 (.flag none),
         reservedByProtocol := args.getD 7 (.flag none) }

/-- Lexicographic strict comparison of two characters lists (Python `str` <). -/
def charsLt : List Char → List Char → Bool
  | [], [] => false
  | [], _ :: _ => true
  | _ :: _, [] => false
  | a :: as, b :: bs =>
    if a.toNat < b.toNat then true
    else if b.toNat < a.toNat then false
    else charsLt as bs

def bargLt : BArg → BArg → Bool
  | .str a, .str b => charsLt a.data b.data
  | _, _ => false

/-- Python `<` on the `Block` namedtuple: elementwise tuple comparison, the
`address_block` comparing as (network address, netmask).  Comparison of two
unequal tri-state flags would raise `TypeError` in Python; it is never reached
for the data of this program and is modelled as a tie. -/
def blockLt (a b : Block) : Bool :=
  if a.network ≠ b.network then decide (a.network < b.network)
  else if a.plen ≠ b.plen then decide (a.plen < b.plen)
  else if a.name ≠ b.name then charsLt a.name.data b.name.data
  else if a.rfc ≠ b.rfc then bargLt a.rfc b.rfc
  else if a.allocationDate ≠ b.allocationDate then bargLt a.allocationDate b.allocationDate
  else if a.terminationDate ≠ b.terminationDate then bargLt a.terminationDate b.terminationDate
  else false

def insertSorted (x : Block) : List Block → List Block
  | [] => [x]
  | y :: l => if blockLt x y then x :: y :: l else y :: insertSorted x l

/-- Stable sort by `blockLt` (`list.sort()` / `sorted()` are stable; an
insertion sort inserting after ties agrees with them on any total preorder). -/
def sortBlocks (l : List Block) : List Block := l.foldl (fun acc x => insertSorted x acc) []

def blockCidrStr (b : Block) : String := pyWithPrefixlen b.network b.plen

/-- Model of `in_allocations`: exact textual match of the lower-cased address
against the `with_prefixlen` text of each entry. -/
def inAllocations (t : List Block) (address : String) : Option Block :=
  t.find? (fun b => pyLower address == blockCidrStr b)

/-- Model of `add_new_allocation`: append and re-sort, unconditionally. -/
def addNewAllocation (t : List Block) (addr : String) (name : String) (args : List BArg) :
    Except PyErr (List Block) :=
  (B addr name args).map (fun b => sortBlocks (t ++ [b]))

def ip4Entry : Except PyErr Block :=
  B "::ffff:0:0/96" "IPv4-mapped Unicast"
    [.str "RFC4291", .str "2006-02", .str "", .flag (some false), .flag (some false),
     .flag (some false), .flag (some false), .flag (some true)]

def ulaEntry : Except PyErr Block :=
  B "fc00::/7" "Unique Local Unicast (ULA)"
    [.str "RFC4193 RFC8190", .str "2005-10", .str "", .flag (some true), .flag (some true),
     .flag (some true), .flag (some false), .flag (some false)]

def guaEntry : Except PyErr Block := B "2000::/3" "Global Unicast (GUA)" []

/-- The static table literal, in source order, before the outer `sorted`. -/
def allocationsE : List (Except PyErr Block) := [
  B "::" "Unspecified Unicast Address"
    [.str "RFC4291", .str "2006-02", .str "", .flag (some true), .flag (some false),
     .flag (some false), .flag (some false), .flag (some true)],
  B "::1" "Loopback Unicast"
    [.str "RFC4291", .str "2006-02", .str "", .flag (some false), .flag (some false),
     .flag (some false), .flag (some false), .flag (some true)],
  ip4Entry,
  B "0064:ff9b::/96" "IPv4-IPv6 Translat."
    [.str "RFC6052", .str "2010-10", .str "", .flag (some true), .flag (some true),
     .flag (some true), .flag (some true), .flag (some false)],
  B "0064:ff9b:1::/48" "IPv4-IPv6 Translat."
    [.str "RFC8215", .str "2017-06", .str "", .flag (some true), .flag (some true),
     .flag (some true), .flag (some false), .flag (some false)],
  B "0100::/64" "Discard-Only Address Block"
    [.str "RFC6666", .str "2012-06", .str "", .flag (some true), .flag (some true),
     .flag (some true), .flag (some false), .flag (some false)],
  B "0200::/7" "DEPRECATED OSI NSAP-mapped prefix set"
    [.str "RFC4048 RFC4548", .str "", .str "2004"],
  ulaEntry,
  B "fc00::/8" "Invalid ULA (0 at bit-8)" [],
  B "fd00::/8" "Valid ULA (1 at bit-8)" [],
  B "fe80::/10" "Link-Local Unicast (LLA) Subnet ID == 0"
    [.str "RFC4291", .str "2006-02", .str "", .flag (some true), .flag (some true),
     .flag (some false), .flag (some false), .flag (some true)],
  B "fec0::/10" "DEPRECATED Site-Local Unicast (SLA)"
    [.str "RFC3513 RFC3879", .str "2003-04", .str "2004-09", .flag (some true),
     .flag (some true), .flag (some true), .flag (some false), .flag (some false)],
  B "ff00::/8" "Multicast" [.str "RFC4291", .str "2006-02"],
  B "ff00::/12" "Well-Known Multicast" [.str "RFC4291"],
  B "ff10::/12" "Transient Multicast" [.str "RFC4291"],
  B "ff30::/12" "Transient Prefix-Based Multicast" [.str "RFC4291"],
  B "ff70::/12" "Transient Prefix-Based Multicast Rendezvous" [.str "RFC4291"],
  B "ff02::1:ff00:0/104" "Solicited-Node Multicast" [.str "RFC4291#section-2.7.1"],
  B "ff01::/16" "Interface-Local Scope" [.str "RFC4291", .str "2006-02"],
  B "ff02::/16" "Link-Local Scope" [.str "RFC4291", .str "2006-02"],
  B "ff03::/16" "Realm-Local Scope" [.str "RFC4291", .str "2006-02"],
  B "ff04::/16" "Admin-Local Scope" [.str "RFC4291", .str "2006-02"],
  B "ff05::/16" "Site-Local Scope" [.str "RFC4291", .str "2006-02"],
  B "ff08::/16" "Organization-Local Scope" [.str "RFC4291", .str "2006-02"],
  B "ff0e::/16" "Global Scope" [.str "RFC4291", .str "2006-02"],
  B "ff01::1" "All Nodes Address" [.str "RFC4291"],
  B "ff01::2" "All Routers Address" [.str "RFC4291"],
  B "ff01::fb" "mDNSv6 (Multicast Domain Name System)" [.str "RFC6762"],
  B "ff01::101" "All NTP Servers" [.str "RFC4291"],
  B "ff02::1" "All Nodes Address" [.str "RFC4291"],
  B "ff02::2" "All Routers Address" [.str "RFC4291"],
  B "ff02::5" "OSPFIGP All Routers Address" [.str "RFC4291"],
  B "ff02::6" "OSPFIGP Designated Routers Address" [.str "RFC4291"],
  B "ff02::9" "RIP2 Routers Address" [.str "RFC4291"],
  B "ff02::a" "EIGRP Routers Address" [.str "RFC4291"],
  B "ff02::1:2" "All DHCPv6 servers and relay agents" [],
  B "ff02::c" "SSDP (Simple Service Discovery Protocol)" [],
  B "ff02::16" "ICMPv6 (Multicast Listener Report)" [],
  B "ff02::fb" "mDNSv6 (Multicast Domain Name System)" [.str "RFC6762"],
  B "ff05::2" "All Routers Address" [.str "RFC4291"],
  B "ff05::fb" "mDNSv6" [.str "RFC6762"],
  B "ff05::1:3" "All DHCP Servers" [.str "RFC8415"],
  B "ff05::1:4" "DEPRECATED (2003-03-12)" [],
  B "ff05::1:5" "SL-MANET-ROUTERS" [.str "RFC6621"],
  guaEntry,
  B "2800:0000::/12" "LACNIC" [.str "", .str "2006-10-03"],
  B "2001::/23" "IETF Protocol Assignments"
    [.str "RFC2928", .str "2000-09", .str "", .flag (some false), .flag (some false),
     .flag (some false), .flag (some false), .flag (some false)],
  B "2001::/32" "Teredo"
    [.str "RFC4380 RFC8190", .str "2006-01", .str "", .flag (some true), .flag (some true),
     .flag (some true), .flag none, .flag (some false)],
  B "2001:1::1" "Port Control Protocol Anycast"
    [.str "RFC7723", .str "2015-10", .str "", .flag (some true), .flag (some true),
     .flag (some true), .flag (some true), .flag (some false)],
  B "2001:1::2" "Traversal Using Relays around NAT Anycast"
    [.str "RFC8155", .str "2017-02", .str "", .flag (some true), .flag (some true),
     .flag (some true), .flag (some true), .flag (some false)],
  B "2001:2::/48" "Benchmarking (never route)"
    [.str "RFC5180 RFC1752", .str "2008-04", .str "", .flag (some true), .flag (some true),
     .flag (some true), .flag (some false), .flag (some false)],
  B "2001:3::/32" "AMT"
    [.str "RFC7450", .str "2014-12", .str "", .flag (some true), .flag (some true),
     .flag (some true), .flag (some true), .flag (some false)],
  B "2001:4:112::/48" "AS112-v6"
    [.str "RFC7535", .str "2014-12", .str "", .flag (some true), .flag (some true),
     .flag (some true), .flag (some true), .flag (some false)],
  B "2001:20::/28" "ORCHIDv2"
    [.str "RFC7343", .str "2014-07", .str "", .flag (some true), .flag (some true),
     .flag (some true), .flag (some true), .flag (some false)],
  B "2001:db8::/32" "Documentation (never route)"
    [.str "RFC3849", .str "2004-07", .str "", .flag (some false), .flag (some false),
     .flag (some false), .flag (some false), .flag (some false)],
  B "2002::/16" "6to4"
    [.str "RFC3056", .str "2001-02", .str "", .flag (some true), .flag (some true),
     .flag (some true), .flag none, .flag (some false)],
  B "2620:4f:8000::/48" "Direct Delegation AS112 Service"
    [.str "RFC7534", .str "2011-05", .str "", .flag (some true), .flag (some true),
     .flag (some true), .flag (some true), .flag (some false)],
  B "2d00:0000::/8" "IANA Reserved" [.str "", .str "1999-07-01"],
  B "2e00:0000::/7" "IANA Reserved" [.str "", .str "1999-07-01"],
  B "3000:0000::/4" "IANA Reserved" [.str "", .str "1999-07-01"],
  B "3ffe::/16" "6bone Testing Allocation"
    [.str "RFC2471 RFC3701", .str "1998-09", .str "2006-06", .flag (some true),
     .flag (some true), .flag (some true), .flag (some true), .flag (some true)],
  B "5f00::/16" "6bone Testing Allocation"
    [.str "RFC2471 RFC3701", .str "1996-03", .str "1998-09", .flag (some true),
     .flag (some true), .flag (some true), .flag (some true), .flag (some true)],
  B "2001:4860::/32" "Google IPv6 (ASN 15169)" [],
  B "2600:6C00::/24" "Charter Communications (CC04)" [],
  B "2600:6c42:7003:300::/64" "Tr Charter external (ASN 20115)" [],
  B "2600:6c42:7600:1194::/64" "Tr Charter internal (ASN 20115)" []
]

/-- The Allocation Table at process start: the static literal, sorted.
(Every entry parses: see `allocations_length`.) -/
def allocations : List Block := sortBlocks (allocationsE.filterMap Except.toOption)

def ip4Block : Block := ip4Entry.toOption.getD defaultBlock
def ulaBlock : Block := ulaEntry.toOption.getD defaultBlock
def guaBlock : Block := guaEntry.toOption.getD defaultBlock

/-- Python `address in block.address_block`:
`network_address <= address <= broadcast_address`. -/
def inBlock (b : Block) (ip : Nat) : Bool :=
  decide (b.network ≤ ip ∧ ip ≤ b.network + (2 ^ (128 - b.plen) - 1))

/-! ### Containment Resolver -/

/-- The chain the per-address loop produces: the table entries whose block
contains the address, in table order. -/
def chainOn (t : List Block) (ip : Nat) : List Block := t.filter (fun b => inBlock b ip)

def chain (ip : Nat) : List Block := chainOn allocations ip

/-- The running `pl` variable of the exploded renderer: the prefix length of
the last containing block, 0 when none. -/
def lastPl (t : List Block) (ip : Nat) : Nat :=
  (chainOn t ip).foldl (fun _ b => b.plen) 0

/-! ### Bit-field Decomposer -/

/-- Model of the dotted-decimal rendering of an IPv4 value below `2^32`. -/
def ip4Str (n : Nat) : String :=
  Nat.repr (n / 16777216 % 256) ++ "." ++ Nat.repr (n / 65536 % 256) ++ "." ++
  Nat.repr (n / 256 % 256) ++ "." ++ Nat.repr (n % 256)

/-- The embedded-IPv4 rendering of the exploded branch: reached only when the
last containing block has prefix length above 64 and the address lies in the
IPv4-mapped block `IP4`. -/
def embeddedIPv4 (t : List Block) (ip : Nat) : Option String :=
  let pl := lastPl t ip
  if pl == 0 then none
  else if pl ≤ 64 then none
  else if inBlock ip4Block ip then some (ip4Str (ip % 2 ^ 32))
  else none

/-- Rendering of one byte as two lowercase hex digits (`%02x`). -/
def hex2 (b : Nat) : String := String.mk [Nat.digitChar (b / 16 % 16), Nat.digitChar (b % 16)]

def macRender (bytes : List Nat) : String := String.intercalate ":" (bytes.map hex2)

/-- The `eui64_mask = 0x00FF_FE00_0000` constant. -/
def eui64Mask : Nat := 0xFFFE000000

/-- The MAC string the tool computes once the mask test has passed. -/
def macOfIp (ip : Nat) : String :=
  let hi := ((ip &&& 0xFFFFFF0000000000) >>> 40) ^^^ 0x020000
  let lo := ip &&& 0xFFFFFF
  let nn := (hi <<< 24) + lo
  macRender [nn / 2 ^ 40 % 256, nn / 2 ^ 32 % 256, nn / 2 ^ 24 % 256,
             nn / 2 ^ 16 % 256, nn / 2 ^ 8 % 256, nn % 256]

/-- The EUI-64 MAC recovery: guarded by
`(address._ip & eui64_mask) == eui64_mask`. -/
def macExtract (ip : Nat) : Option String :=
  if ip &&& eui64Mask == eui64Mask then some (macOfIp ip) else none

/-- The slice `id[2:14]` of `address.exploded`, the Global ID payload printed for a ULA
address (`tail` is whatever `exploded` appends after the 39 address
characters, `/prefixlen` for an interface). -/
def ulaGid (ip : Nat) (tail : List Char) : List Char :=
  ((explodedChars ip tail).drop 2).take 12

/-- The slice `id[15:19]` of `address.exploded`, the Subnet ID payload. -/
def ulaSid (ip : Nat) (tail : List Char) : List Char :=
  ((explodedChars ip tail).drop 15).take 4

/-- The ULA branch: executed exactly when `address in ULA`, with no reference
to the Allocation Table. -/
def ulaDecomp (ip : Nat) (tail : List Char) : Option (List Char × List Char) :=
  if inBlock ulaBlock ip then some (ulaGid ip tail, ulaSid ip tail) else none

/-! ### Dynamic Allocation Augmenter -/

/-- The record of the whois collaborator (external, consumed not owned). -/
structure WhoisRec where
  owner : String
  cidr : String
  name : String
  asn : Option String
  parent : Option String

/-- The display name built from the record name and owner, plus the ASN
suffix when the asn field is truthy. -/
def whoisDesc (r : WhoisRec) : String :=
  let d := r.name ++ ": " ++ r.owner
  match r.asn with
  | some a => if a.isEmpty then d else d ++ " (ASN " ++ a ++ ")"
  | none => d

/-- Model of `add_org`, with the whois collaborator as a function, recursion depth as
fuel (`none` = fuel exhausted), and the Python exceptions that can escape as
`Except.error`.  Note the parent walk happens whether or not `root_cidr` was
already in the table; only the insertion is guarded. -/
def addOrg (w : String → Option WhoisRec) :
    Nat → String → List Block → Option (Except PyErr (List Block))
  | 0, _, _ => none
  | fuel + 1, address, t =>
    match w address with
    | none => some (.ok t)
    | some r =>
      let step : Except PyErr (List Block) :=
        match inAllocations t r.cidr with
        | some _ => .ok t
        | none => addNewAllocation t r.cidr (whoisDesc r) []
      match step with
      | .error e => some (.error e)
      | .ok t1 =>
        match r.parent with
        | none => some (.ok t1)
        | some p =>
          if pyStartsWith p "NET" then addOrg w fuel p t1
          else
            match pyParseItf p with
            | .error (.addressValueError _) => some (.ok t1)
            | .error e => some (.error e)
            | .ok itf => addOrg w fuel (pyWithPrefixlen itf.ip itf.plen) t1

/-! ### The per-address main loop -/

inductive AddrOut where
  | invalid (line : String)
  | decoded (ip : Nat) (plen : Nat) (chainBlocks : List Block)
deriving DecidableEq

/-- Python `repr` of the plain address strings handled here (single quotes). -/
def pyRepr (s : String) : String :=
  String.mk (Char.ofNat 39 :: s.data ++ [Char.ofNat 39])

/-- The inline per-address parse failure report:
the literal text Invalid IPv6 address, then the quoted address and detail. -/
def invalidLine (s : String) (e : PyErr) : String :=
  "Invalid IPv6 address: " ++ pyRepr s ++ ".  " ++ e.text

/-- One iteration of the main loop: parse (failures are caught and reported
inline), augment via `add_org` when the address is in Global Unicast space,
then resolve the containment chain against the (possibly grown) table. -/
def processOne (w : String → Option WhoisRec) (fuel : Nat) (t : List Block) (s : String) :
    Option (Except PyErr (AddrOut × List Block)) :=
  match pyParseItf s with
  | .error e => some (.ok (.invalid (invalidLine s e), t))
  | .ok itf =>
    if inBlock guaBlock itf.ip then
      match addOrg w fuel (pyWithPrefixlen itf.ip itf.plen) t with
      | none => none
      | some (.error e) => some (.error e)
      | some (.ok t1) => some (.ok (.decoded itf.ip itf.plen (chainOn t1 itf.ip), t1))
    else some (.ok (.decoded itf.ip itf.plen (chainOn t itf.ip), t))

/-- The whole batch, threading the mutable table; an uncaught exception (or
fuel exhaustion of the model) aborts the run. -/
def mainLoop (w : String → Option WhoisRec) (fuel : Nat) :
    List String → List Block → Option (Except PyErr (List AddrOut × List Block))
  | [], t => some (.ok ([], t))
  | s :: rest, t =>
    match processOne w fuel t s with
    | none => none
    | some (.error e) => some (.error e)
    | some (.ok (o, t1)) =>
      match mainLoop w fuel rest t1 with
      | none => none
      | some (.error e) => some (.error e)
      | some (.ok (os, t2)) => some (.ok (o :: os, t2))

/-- Process exit status: 0 on normal completion, 1 on an uncaught exception. -/
def exitCode : Option (Except PyErr (List AddrOut × List Block)) → Option Nat
  | none => none
  | some (.ok _) => some 0
  | some (.error _) => some 1

/-- What one address contributes when the whois collaborator returns no
records (so the table never changes). -/
def stepNoWhois (s : String) : AddrOut :=
  match pyParseItf s with
  | .error e => .invalid (invalidLine s e)
  | .ok itf => .decoded itf.ip itf.plen (chainOn allocations itf.ip)

/-! ### Spec-side definitions (stated from the words of the claims, for comparison
against the code-side definitions above) -/

/-- Spec side: the claimed EUI-64 trigger — bytes 3 and 4 of the low 64 bits
equal `0xFF, 0xFE`. -/
def specEuiPattern (ip : Nat) : Prop :=
  ip / 2 ^ 32 % 256 = 255 ∧ ip / 2 ^ 24 % 256 = 254

instance (ip : Nat) : Decidable (specEuiPattern ip) := by
  unfold specEuiPattern; infer_instance

/-- Spec side: the claimed MAC value — the high 24 bits of the Interface ID
with bit 1 (value 2) of their first byte flipped, then the low 24 bits,
rendered as six lowercase colon-separated hex octets. -/
def specMacStr (ip : Nat) : String :=
  macRender [ip / 2 ^ 56 % 256 ^^^ 2, ip / 2 ^ 48 % 256, ip / 2 ^ 40 % 256,
             ip / 2 ^ 16 % 256, ip / 2 ^ 8 % 256, ip % 256]

/-- Spec side: the 40-bit Global ID — bits 8 to 47 of the address counted from
the most-significant bit — rendered nibble by nibble in the exploded layout. -/
def specGidChars (ip : Nat) : List Char :=
  [Nat.digitChar (ip / 2 ^ 116 % 16), Nat.digitChar (ip / 2 ^ 112 % 16), ':',
   Nat.digitChar (ip / 2 ^ 108 % 16), Nat.digitChar (ip / 2 ^ 104 % 16),
   Nat.digitChar (ip / 2 ^ 100 % 16), Nat.digitChar (ip / 2 ^ 96 % 16), ':',
   Nat.digitChar (ip / 2 ^ 92 % 16), Nat.digitChar (ip / 2 ^ 88 % 16),
   Nat.digitChar (ip / 2 ^ 84 % 16), Nat.digitChar (ip / 2 ^ 80 % 16)]

/-- Spec side: the 16-bit Subnet ID — bits 48 to 63. -/
def specSidChars (ip : Nat) : List Char :=
  [Nat.digitChar (ip / 2 ^ 76 % 16), Nat.digitChar (ip / 2 ^ 72 % 16),
   Nat.digitChar (ip / 2 ^ 68 % 16), Nat.digitChar (ip / 2 ^ 64 % 16)]

/-- The sort key order of the table: network address ascending, then prefix length
ascending. -/
def keyLe (a b : Block) : Prop :=
  a.network < b.network ∨ (a.network = b.network ∧ a.plen ≤ b.plen)

instance : DecidableRel keyLe := fun a b => by unfold keyLe; infer_instance

/-- The relation of being a strict supernet: a shorter prefix whose range
contains the network address of the other block. -/
def strictSuper (a b : Block) : Prop :=
  a.plen < b.plen ∧ inBlock a b.network = true

instance : DecidableRel strictSuper := fun a b => by unfold strictSuper; infer_instance

/-! ### Concrete collaborator scenarios used by the claims -/

/-- A whois answer whose reported CIDR is already an exact table entry but
which still carries a parent reference. -/
def c1Rec1 : WhoisRec := ⟨"Owner A", "2800::/12", "Name A", none, some "2001:db8:dead::/48"⟩

def c1Rec2 : WhoisRec := ⟨"Owner B", "2001:db8:dead::/48", "Name B", some "64496", none⟩

def c1Whois : String → Option WhoisRec := fun s =>
  if s == "q" then some c1Rec1
  else if s == "2001:db8:dead::/48" then some c1Rec2
  else none

def cycA : String := "2001:db8:a::/48"

def cycB : String := "2001:db8:b::/48"

def cycRecA : WhoisRec := ⟨"Org A", cycA, "A-NET", none, some cycB⟩

def cycRecB : WhoisRec := ⟨"Org B", cycB, "B-NET", none, some cycA⟩

/-- A fabricated cyclic whois parent chain A -> B -> A. -/
def wCyc : String → Option WhoisRec := fun s =>
  if s == cycA then some cycRecA
  else if s == cycB then some cycRecB
  else none

def cycBlockA : Block := (B cycA (whoisDesc cycRecA) []).toOption.getD defaultBlock

def cycBlockB : Block := (B cycB (whoisDesc cycRecB) []).toOption.getD defaultBlock

def cycItfA : PyItf := (pyParseItf cycA).toOption.getD ⟨0, 0⟩

def cycItfB : PyItf := (pyParseItf cycB).toOption.getD ⟨0, 0⟩

/-- A whois answer whose parent reference has a valid address part but an
invalid prefix length. -/
def c7Rec : WhoisRec := ⟨"Owner", "2800::/12", "Name", none, some "::1/200"⟩

def c7Whois : String → Option WhoisRec := fun s =>
  if s == "q" then some c7Rec else none

/-- A whois answer whose parent reference has invalid address text. -/
def c7RecA : WhoisRec := ⟨"Owner", "2800::/12", "Name", none, some "zzz"⟩

def c7WhoisA : String → Option WhoisRec := fun s =>
  if s == "q" then some c7RecA else none

def c7Found : Block := (inAllocations allocations "2800::/12").getD defaultBlock

/-- A whois answer with no parent, whose CIDR is already in the table. -/
def c3wRec : WhoisRec := ⟨"o", "2800::/12", "n", none, none⟩

def c3wWhois : String → Option WhoisRec := fun s =>
  if s == "q" then some c3wRec else none

def c3wB : Block := (B "2001:db8::/48" "x" []).toOption.getD defaultBlock

/-- Two blocks with the identical CIDR `fd00::/18`, inserted "zzz" first. -/
def c9t1 : List Block := [(B "fd00::/18" "zzz" []).toOption.getD defaultBlock]

def c9t2 : List Block := (addNewAllocation c9t1 "fd00::/18" "aaa" []).toOption.getD []

def c9ip : Nat := 0xfd00 * 2 ^ 112

/-- The value of `64:ff9b::192.168.1.200`. -/
def c5Nat64Ip : Nat := 0x64ff9b * 2 ^ 96 + 0xc0a801c8

/-- The value of `::ffff:192.168.1.200`. -/
def c5MappedIp : Nat := 0xffff * 2 ^ 32 + 0xc0a801c8

/-- The value of `fd91:f453:ed1f:0:a02a:7d9e:7da:40d2`, a ULA. -/
def c6Ip : Nat := 0xfd91f453ed1f0000a02a7d9e07da40d2

/-! ## Helper lemmas -/

theorem charsLt_irrefl (l : List Char) : charsLt l l = false := by
  induction l with
  | nil => rfl
  | cons a l ih => simp [charsLt, ih]

theorem insertSorted_length (x : Block) (l : List Block) :
    (insertSorted x l).length = l.length + 1 := by
  induction l with
  | nil => rfl
  | cons y l ih =>
    by_cases h : blockLt x y
    · simp [insertSorted, h]
    · simp [insertSorted, h, ih]

theorem sortBlocks_go_length (l : List Block) (acc : List Block) :
    (l.foldl (fun acc x => insertSorted x acc) acc).length = acc.length + l.length := by
  induction l generalizing acc with
  | nil => simp
  | cons x l ih => simp [List.foldl, ih, insertSorted_length]; omega

theorem sortBlocks_length (l : List Block) : (sortBlocks l).length = l.length := by
  simp [sortBlocks, sortBlocks_go_length]

/-- Filtering a pairwise-related list keeps the relation and records that both
elements come from the list and satisfy the filter. -/
theorem pairwise_filter_mem {α} (R : α → α → Prop) (p : α → Bool) (l : List α)
    (h : l.Pairwise R) :
    (l.filter p).Pairwise
      (fun a b => R a b ∧ a ∈ l ∧ b ∈ l ∧ p a = true ∧ p b = true) := by
  induction l with
  | nil => simp
  | cons x l ih =>
    rw [List.pairwise_cons] at h
    obtain ⟨h1, h2⟩ := h
    have ihres : (l.filter p).Pairwise
        (fun a b => R a b ∧ a ∈ x :: l ∧ b ∈ x :: l ∧ p a = true ∧ p b = true) :=
      (ih h2).imp
        (fun hab => ⟨hab.1, List.mem_cons_of_mem x hab.2.1,
          List.mem_cons_of_mem x hab.2.2.1, hab.2.2.2⟩)
    by_cases hx : p x
    · rw [List.filter_cons_of_pos hx, List.pairwise_cons]
      refine ⟨?_, ihres⟩
      intro b hb
      have hbl := List.mem_filter.mp hb
      exact ⟨h1 b hbl.1, List.mem_cons_self x l, List.mem_cons_of_mem x hbl.1, hx, hbl.2⟩
    · rw [List.filter_cons_of_neg hx]
      exact ihres

/-- Two aligned blocks both containing an address are nested, and the sort key
order puts the wider one first: if `a` comes no later than `b` in key order
and both contain `ip`, then the prefix of `a` is no longer than that of `b`. -/
theorem plen_le_of_keyLe_contains (a b : Block) (ip : Nat)
    (haal : a.network % 2 ^ (128 - a.plen) = 0)
    (hbal : b.network % 2 ^ (128 - b.plen) = 0)
    (hk : keyLe a b) (hia : inBlock a ip = true) (hib : inBlock b ip = true) :
    a.plen ≤ b.plen := by
  by_contra hlt
  rcases hk with hnet | ⟨heq, hple⟩
  · have hsa : 128 - a.plen ≤ 128 - b.plen := by omega
    obtain ⟨x, hx⟩ := Nat.dvd_of_mod_eq_zero haal
    obtain ⟨y, hy⟩ :=
      dvd_trans (pow_dvd_pow 2 hsa) (Nat.dvd_of_mod_eq_zero hbal)
    simp only [inBlock, decide_eq_true_eq] at hia hib
    have hxy : x < y := by
      have hn := hnet
      rw [hx, hy] at hn
      exact lt_of_mul_lt_mul_left hn (Nat.zero_le _)
    have hstep : a.network + 2 ^ (128 - a.plen) ≤ b.network := by
      rw [hx, hy]
      calc 2 ^ (128 - a.plen) * x + 2 ^ (128 - a.plen)
          = 2 ^ (128 - a.plen) * (x + 1) := by ring
        _ ≤ 2 ^ (128 - a.plen) * y := Nat.mul_le_mul_left _ hxy
    have hpos : 1 ≤ 2 ^ (128 - a.plen) := Nat.one_le_two_pow
    set P := 2 ^ (128 - a.plen) with hP
    omega
  · omega

theorem splitOnChar_append_sep (sep : Char) (l r : List Char) (h : hasChar sep l = false) :
    splitOnChar sep (l ++ sep :: r) = l :: splitOnChar sep r := by
  induction l with
  | nil => simp [splitOnChar]
  | cons a l ih =>
    simp only [hasChar, Bool.or_eq_false_iff] at h
    obtain ⟨ha, hl⟩ := h
    simp [splitOnChar, ha, ih hl]

/-! ## Claim theorems -/

/-- C2: for every valid IPv6 address the chain of the Containment Resolver holds
exactly the allocation blocks containing the address; along the chain prefix
lengths never decrease, and no block is preceded by one it strictly
contains (so every strict supernet comes before every block it contains). -/
theorem c2_resolver_chain (ip : Nat) (_h : ip < 2 ^ 128) :
    (∀ b, b ∈ chain ip ↔ b ∈ allocations ∧ inBlock b ip = true) ∧
    (chain ip).Pairwise (fun a b => a.plen ≤ b.plen ∧ ¬ strictSuper b a) := by
  constructor
  · intro b
    simp [chain, chainOn, List.mem_filter]
  · have hs : allocations.Pairwise keyLe := by decide
    have hfacts : ∀ b ∈ allocations,
        b.plen ≤ 128 ∧ b.network % 2 ^ (128 - b.plen) = 0 := by decide
    have h2 := pairwise_filter_mem keyLe (fun b => inBlock b ip) allocations hs
    refine h2.imp ?_
    intro a b hab
    obtain ⟨hk, hma, hmb, hpa, hpb⟩ := hab
    obtain ⟨ha128, haal⟩ := hfacts a hma
    obtain ⟨hb128, hbal⟩ := hfacts b hmb
    have hple := plen_le_of_keyLe_contains a b ip haal hbal hk hpa hpb
    refine ⟨hple, ?_⟩
    intro hss
    have h1 := hss.1
    omega

/-- Witness for C2 at the loopback address `::1`. -/
theorem c2_resolver_chain_witness :
    (∀ b, b ∈ chain 1 ↔ b ∈ allocations ∧ inBlock b 1 = true) ∧
    (chain 1).Pairwise (fun a b => a.plen ≤ b.plen ∧ ¬ strictSuper b a) :=
  c2_resolver_chain 1 (by norm_num)

/-- C9 counterexample: the table sort orders two equal-CIDR blocks by the
remaining record fields (here the name), not by insertion order.  A table
holding the `fd00::/18` block named "zzz" into which a second `fd00::/18`
block named "aaa" is inserted yields the chain `[aaa, zzz]`, the reverse of
insertion order. -/
theorem c9_counterexample :
    c9t1.map (fun b => b.name) = ["zzz"] ∧
    (addNewAllocation c9t1 "fd00::/18" "aaa" []).map
      (fun t => (chainOn t c9ip).map (fun b => b.name)) = .ok ["aaa", "zzz"] :=
  ⟨rfl, rfl⟩

/-- C9 amended: in a sorted table, equal-CIDR blocks both appear in the chain
(every containing entry does), and the chain presents them in table order,
which for equal CIDRs is derived from comparing the remaining record fields
(name first) — never with a lexicographically larger name first — rather than
from insertion order. -/
theorem c9_amended (t : List Block) (ip : Nat)
    (hs : t.Pairwise (fun a b => blockLt b a = false)) :
    (∀ b ∈ t, inBlock b ip = true → b ∈ chainOn t ip) ∧
    (chainOn t ip).Pairwise (fun a b => a.network = b.network → a.plen = b.plen →
      charsLt b.name.data a.name.data = false) := by
  constructor
  · intro b hb hin
    simp [chainOn, List.mem_filter, hb, hin]
  · have h2 := pairwise_filter_mem _ (fun b => inBlock b ip) t hs
    refine h2.imp ?_
    intro a b hab hnet hplen
    have hlt := hab.1
    unfold blockLt at hlt
    rw [show b.network = a.network from hnet.symm,
        show b.plen = a.plen from hplen.symm] at hlt
    simp only [ne_eq, not_true_eq_false, if_false, ite_false] at hlt
    by_cases hn : b.name = a.name
    · rw [hn]
      exact charsLt_irrefl _
    · simpa [hn] using hlt

/-- Witness for C9 amended on the two-block equal-CIDR table. -/
theorem c9_amended_witness :
    (∀ b ∈ c9t2, inBlock b c9ip = true → b ∈ chainOn c9t2 c9ip) ∧
    (chainOn c9t2 c9ip).Pairwise (fun a b => a.network = b.network → a.plen = b.plen →
      charsLt b.name.data a.name.data = false) :=
  c9_amended c9t2 c9ip (by decide)

/-- C3 counterexample: `2800::/12` is already an exact entry of the table
(`lookup_exact` finds it), yet `add_new_allocation` still appends — the table
grows by one, so the insert operation itself is not idempotent. -/
theorem c3_counterexample :
    (inAllocations allocations "2800::/12").isSome = true ∧
    (addNewAllocation allocations "2800::/12" "LACNIC" []).map List.length =
      .ok (allocations.length + 1) :=
  ⟨rfl, rfl⟩

/-- C3 amended: `add_new_allocation` itself always appends and re-sorts (the
table grows by one even on a duplicate CIDR); the no-op on duplicates is
implemented by the caller `add_org`, which consults `in_allocations` first and
skips the insert, leaving the table unchanged. -/
theorem c3_amended :
    (∀ (t : List Block) (addr name : String) (args : List BArg) (b : Block),
      B addr name args = .ok b →
      (addNewAllocation t addr name args).map List.length = .ok (t.length + 1)) ∧
    (∀ (w : String → Option WhoisRec) (n : Nat) (addr : String) (r : WhoisRec)
        (t : List Block) (b : Block),
      w addr = some r → inAllocations t r.cidr = some b → r.parent = none →
      addOrg w (n + 1) addr t = some (.ok t)) := by
  constructor
  · intro t addr name args b hB
    simp [addNewAllocation, hB, Except.map, sortBlocks_length]
  · intro w n addr r t b hw hin hpar
    simp [addOrg, hw, hin, hpar]

/-- Witness for C3 amended: a fresh insert into the empty table, and an
`add_org` call whose record is already known and parentless. -/
theorem c3_amended_witness :
    (addNewAllocation [] "2001:db8::/48" "x" []).map List.length = .ok 1 ∧
    addOrg c3wWhois 1 "q" allocations = some (.ok allocations) :=
  ⟨c3_amended.1 [] "2001:db8::/48" "x" [] c3wB rfl,
   c3_amended.2 c3wWhois 0 "q" c3wRec allocations c7Found rfl rfl rfl⟩

theorem exceptBind_ok {ε α β : Type} (a : α) (f : α → Except ε β) :
    (Except.ok a >>= f) = f a := rfl

theorem exceptBind_error {ε α β : Type} (e : ε) (f : α → Except ε β) :
    ((Except.error e : Except ε α) >>= f) = Except.error e := rfl

theorem exceptPure {ε α : Type} (a : α) : (pure a : Except ε α) = Except.ok a := rfl

theorem pyParseItf_no_slash_128 (addr : String) (h : hasChar '/' addr.data = false) :
    pyParseItf (addr ++ "/128") = (parseV6Addr addr.data).map (fun ip => ⟨ip, 128⟩) := by
  unfold pyParseItf
  rw [String.data_append]
  rw [show ("/128" : String).data = '/' :: ['1', '2', '8'] from rfl]
  rw [splitOnChar_append_sep '/' addr.data ['1', '2', '8'] h]
  rw [show splitOnChar '/' ['1', '2', '8'] = [['1', '2', '8']] from rfl]
  cases hv : parseV6Addr addr.data <;> simp only [hv] <;> rfl

theorem pyParseNet_no_slash_128 (addr : String) (h : hasChar '/' addr.data = false) :
    pyParseNet (addr ++ "/128") = (parseV6Addr addr.data).map (fun ip => ⟨ip, 128⟩) := by
  unfold pyParseNet
  rw [pyParseItf_no_slash_128 addr h]
  cases hv : parseV6Addr addr.data
  · rfl
  · simp only [Except.map, exceptBind_ok, Nat.sub_self, pow_zero, Nat.mod_one,
      exceptPure]
    simp

/-- C10: a block built from an address string containing no slash is stored
with prefix length 128; metadata not supplied defaults to the empty string
for `rfc` and the two dates and to the unknown tri-state for the five
registry flags. -/
theorem c10_block_defaults (addr name : String) (args : List BArg) (b : Block)
    (hslash : hasChar '/' addr.data = false) (hok : B addr name args = .ok b) :
    b.plen = 128 ∧
    (args = [] → b.rfc = .str "" ∧ b.allocationDate = .str "" ∧
      b.terminationDate = .str "" ∧ b.source = .flag none ∧ b.destination = .flag none ∧
      b.forwardable = .flag none ∧ b.globallyReachable = .flag none ∧
      b.reservedByProtocol = .flag none) := by
  simp only [B, hslash, Bool.false_eq_true, if_false] at hok
  rw [pyParseNet_no_slash_128 addr hslash] at hok
  cases hv : parseV6Addr addr.data with
  | error e => rw [hv] at hok; simp [Except.map] at hok
  | ok ip =>
    rw [hv] at hok
    simp only [Except.map, exceptBind_ok, exceptPure, Except.ok.injEq] at hok
    subst hok
    refine ⟨rfl, ?_⟩
    rintro rfl
    exact ⟨rfl, rfl, rfl, rfl, rfl, rfl, rfl, rfl⟩

/-- Witness for C10: an address with no slash and no metadata arguments. -/
theorem c10_block_defaults_witness :
    (B "abcd:1234::" "Unassigned" []).toOption.getD defaultBlock = Block.mk
      0xabcd1234000000000000000000000000 128 "Unassigned"
      (.str "") (.str "") (.str "") (.flag none) (.flag none) (.flag none)
      (.flag none) (.flag none) ∧
    ((B "abcd:1234::" "Unassigned" []).toOption.getD defaultBlock).plen = 128 :=
  ⟨rfl, (c10_block_defaults "abcd:1234::" "Unassigned" []
    ((B "abcd:1234::" "Unassigned" []).toOption.getD defaultBlock) rfl rfl).1⟩

/-- C1 counterexample: the whois record for `"q"` reports `root_cidr`
`2800::/12`, which is already an exact entry of the Allocation Table — by the
claim `add_org` should stop immediately and not follow the parent reference.
In fact it still recurses on the parent `2001:db8:dead::/48` and inserts it:
the table grows by one block. -/
theorem c1_counterexample :
    (inAllocations allocations c1Rec1.cidr).isSome = true ∧
    (addOrg c1Whois 3 "q" allocations).map (Except.map List.length) =
      some (.ok (allocations.length + 1)) :=
  ⟨rfl, rfl⟩

/-- On the cyclic whois chain `cycA -> cycB -> cycA` the augmenter never
finishes: whatever the table, every recursion budget is exhausted. -/
theorem addOrg_wCyc_stuck : ∀ (n : Nat) (t : List Block) (a : String),
    a = cycA ∨ a = cycB → addOrg wCyc n a t = none := by
  intro n
  induction n with
  | zero => intro t a _; rfl
  | succ n ih =>
    intro t a h
    have hwA : wCyc cycA = some cycRecA := rfl
    have hwB : wCyc cycB = some cycRecB := rfl
    have hparA : cycRecA.parent = some cycB := rfl
    have hparB : cycRecB.parent = some cycA := rfl
    have hnetA : pyStartsWith cycB "NET" = false := rfl
    have hnetB : pyStartsWith cycA "NET" = false := rfl
    have hparseB : pyParseItf cycB = .ok cycItfB := rfl
    have hparseA : pyParseItf cycA = .ok cycItfA := rfl
    have hwplB : pyWithPrefixlen cycItfB.ip cycItfB.plen = cycB := rfl
    have hwplA : pyWithPrefixlen cycItfA.ip cycItfA.plen = cycA := rfl
    have hBA : B cycRecA.cidr (whoisDesc cycRecA) [] = .ok cycBlockA := rfl
    have hBB : B cycRecB.cidr (whoisDesc cycRecB) [] = .ok cycBlockB := rfl
    rcases h with rfl | rfl
    · cases hin : inAllocations t cycRecA.cidr with
      | some b =>
        simp only [addOrg, hwA, hin, hparA, hnetA, hparseB, hwplB]
        exact ih _ _ (Or.inr rfl)
      | none =>
        simp only [addOrg, hwA, hin, hparA, hnetA, hparseB, hwplB, addNewAllocation, hBA]
        exact ih _ _ (Or.inr rfl)
    · cases hin : inAllocations t cycRecB.cidr with
      | some b =>
        simp only [addOrg, hwB, hin, hparB, hnetB, hparseA, hwplA]
        exact ih _ _ (Or.inl rfl)
      | none =>
        simp only [addOrg, hwB, hin, hparB, hnetB, hparseA, hwplA, addNewAllocation, hBB]
        exact ih _ _ (Or.inl rfl)

/-- C1 amended: when `root_cidr` is already an exact table entry `add_org`
only skips the insertion (so no CIDR is ever inserted twice) but still
recurses on the parent reference; consequently, on a fabricated cyclic whois
parent chain A -> B -> A the augmentation does not terminate — for every
recursion budget `n` the walk is still running. -/
theorem c1_amended : ∀ n : Nat, addOrg wCyc n cycA allocations = none :=
  fun n => addOrg_wCyc_stuck n allocations cycA (Or.inl rfl)

/-- Witness instantiating the amended C1 at a concrete budget. -/
theorem c1_amended_witness : addOrg wCyc 5 cycA allocations = none :=
  c1_amended 5

/-- C7 counterexample: the whois record for `"q"` has parent `::1/200` — not
a NET handle, with a valid address part but an invalid prefix length.  The
claim says the branch terminates silently; in fact the parse raises
`NetmaskValueError`, which `add_org` does not catch (it only catches
`AddressValueError`), so the exception propagates out of `add_org`. -/
theorem c7_counterexample :
    c7Rec.parent = some "::1/200" ∧
    pyStartsWith "::1/200" "NET" = false ∧
    pyParseItf "::1/200" = .error (.netmaskValueError "is not a valid netmask") ∧
    addOrg c7Whois 2 "q" allocations =
      some (.error (.netmaskValueError "is not a valid netmask")) :=
  ⟨rfl, rfl, rfl, rfl⟩

/-- C7 amended: a parent reference that is not a NET handle and whose address
text fails to parse (an `AddressValueError`) terminates the branch silently,
with no exception and the table unchanged; but a parent whose address part
parses while its prefix length is invalid raises a `NetmaskValueError` that
propagates out of `add_org`. -/
theorem c7_amended :
    (∀ (w : String → Option WhoisRec) (n : Nat) (addr p : String) (r : WhoisRec)
        (t : List Block) (b : Block) (m : String),
      w addr = some r → inAllocations t r.cidr = some b → r.parent = some p →
      pyStartsWith p "NET" = false → pyParseItf p = .error (.addressValueError m) →
      addOrg w (n + 1) addr t = some (.ok t)) ∧
    (∀ (w : String → Option WhoisRec) (n : Nat) (addr p : String) (r : WhoisRec)
        (t : List Block) (b : Block) (m : String),
      w addr = some r → inAllocations t r.cidr = some b → r.parent = some p →
      pyStartsWith p "NET" = false → pyParseItf p = .error (.netmaskValueError m) →
      addOrg w (n + 1) addr t = some (.error (.netmaskValueError m))) := by
  constructor <;>
  · intro w n addr p r t b m hw hin hpar hnet hparse
    simp [addOrg, hw, hin, hpar, hnet, hparse]

/-- Witness for C7 amended: an unparsable parent (`zzz`) is skipped silently,
an invalid prefix length (`::1/200`) escapes as a `NetmaskValueError`. -/
theorem c7_amended_witness :
    addOrg c7WhoisA 1 "q" allocations = some (.ok allocations) ∧
    addOrg c7Whois 1 "q" allocations =
      some (.error (.netmaskValueError "is not a valid netmask")) :=
  ⟨c7_amended.1 c7WhoisA 0 "q" "zzz" c7RecA allocations c7Found
      "At least 3 parts expected" rfl rfl rfl rfl rfl,
   c7_amended.2 c7Whois 0 "q" "::1/200" c7Rec allocations c7Found
      "is not a valid netmask" rfl rfl rfl rfl rfl⟩

/-! ### Bitwise helper lemmas for the EUI-64 claim -/

theorem land_shiftRight (a b n : Nat) : (a &&& b) >>> n = (a >>> n) &&& (b >>> n) := by
  apply Nat.eq_of_testBit_eq
  intro i
  simp [Nat.testBit_shiftRight, Nat.testBit_and]

theorem xor_shiftRight (a b n : Nat) : (a ^^^ b) >>> n = (a >>> n) ^^^ (b >>> n) := by
  apply Nat.eq_of_testBit_eq
  intro i
  simp [Nat.testBit_shiftRight, Nat.testBit_xor]

theorem xor_mod_two_pow (a b n : Nat) : (a ^^^ b) % 2 ^ n = a % 2 ^ n ^^^ b % 2 ^ n := by
  apply Nat.eq_of_testBit_eq
  intro i
  simp only [Nat.testBit_mod_two_pow, Nat.testBit_xor]
  by_cases h : i < n <;> simp [h]

theorem land_shiftLeft (a b n : Nat) : a &&& (b <<< n) = ((a >>> n) &&& b) <<< n := by
  apply Nat.eq_of_testBit_eq
  intro i
  simp only [Nat.testBit_and, Nat.testBit_shiftLeft, Nat.testBit_shiftRight]
  by_cases h : n ≤ i
  · simp [h, Nat.add_sub_cancel' h, Bool.and_comm, Bool.and_left_comm]
  · simp [h]

theorem hi24_eq (ip : Nat) : (ip &&& 0xFFFFFF0000000000) >>> 40 = ip / 2 ^ 40 % 2 ^ 24 := by
  rw [land_shiftRight]
  rw [show (0xFFFFFF0000000000 : Nat) >>> 40 = 2 ^ 24 - 1 from rfl]
  rw [Nat.and_pow_two_sub_one_eq_mod, Nat.shiftRight_eq_div_pow]

theorem lo24_eq (ip : Nat) : ip &&& 0xFFFFFF = ip % 2 ^ 24 := by
  rw [show (0xFFFFFF : Nat) = 2 ^ 24 - 1 from rfl, Nat.and_pow_two_sub_one_eq_mod]

theorem macByte0 (ip : Nat) :
    (ip / 2 ^ 40 % 2 ^ 24 ^^^ 131072) / 2 ^ 16 % 256 = ip / 2 ^ 56 % 256 ^^^ 2 := by
  rw [← Nat.shiftRight_eq_div_pow (ip / 2 ^ 40 % 2 ^ 24 ^^^ 131072) 16]
  rw [xor_shiftRight, Nat.shiftRight_eq_div_pow, Nat.shiftRight_eq_div_pow]
  rw [show (131072 : Nat) / 2 ^ 16 = 2 from by norm_num]
  rw [show (256 : Nat) = 2 ^ 8 from rfl, xor_mod_two_pow,
      show (2 : Nat) % 2 ^ 8 = 2 from rfl]
  have h1 : ip / 2 ^ 40 % 2 ^ 24 / 2 ^ 16 % 2 ^ 8 = ip / 2 ^ 56 % 2 ^ 8 := by omega
  rw [h1]

theorem macByte1 (ip : Nat) :
    (ip / 2 ^ 40 % 2 ^ 24 ^^^ 131072) / 2 ^ 8 % 256 = ip / 2 ^ 48 % 256 := by
  rw [← Nat.shiftRight_eq_div_pow (ip / 2 ^ 40 % 2 ^ 24 ^^^ 131072) 8]
  rw [xor_shiftRight, Nat.shiftRight_eq_div_pow, Nat.shiftRight_eq_div_pow]
  rw [show (131072 : Nat) / 2 ^ 8 = 512 from by norm_num]
  rw [show (256 : Nat) = 2 ^ 8 from rfl, xor_mod_two_pow,
      show (512 : Nat) % 2 ^ 8 = 0 from rfl, Nat.xor_zero]
  omega

theorem macByte2 (ip : Nat) :
    (ip / 2 ^ 40 % 2 ^ 24 ^^^ 131072) % 256 = ip / 2 ^ 40 % 256 := by
  rw [show (256 : Nat) = 2 ^ 8 from rfl, xor_mod_two_pow,
      show (131072 : Nat) % 2 ^ 8 = 0 from rfl, Nat.xor_zero]
  omega

/-- The MAC string the code computes agrees, for every address, with the
transform stated by the spec (high 24 Interface-ID bits, first byte xor 2,
then the low 24 bits). -/
theorem macOfIp_eq_spec (ip : Nat) : macOfIp ip = specMacStr ip := by
  simp only [macOfIp, specMacStr, hi24_eq, lo24_eq, Nat.shiftLeft_eq]
  have hd : ip / 2 ^ 40 % 2 ^ 24 < 2 ^ 24 := Nat.mod_lt _ (by norm_num)
  have hr : ip % 2 ^ 24 < 2 ^ 24 := Nat.mod_lt _ (by norm_num)
  have hx24 : (ip / 2 ^ 40 % 2 ^ 24 ^^^ 131072) < 2 ^ 24 :=
    Nat.xor_lt_two_pow hd (by norm_num)
  have e6 : ((ip / 2 ^ 40 % 2 ^ 24 ^^^ 131072) * 2 ^ 24 + ip % 2 ^ 24) % 256 = ip % 256 := by
    omega
  have e5 : ((ip / 2 ^ 40 % 2 ^ 24 ^^^ 131072) * 2 ^ 24 + ip % 2 ^ 24) / 2 ^ 8 % 256 =
      ip / 2 ^ 8 % 256 := by omega
  have e4 : ((ip / 2 ^ 40 % 2 ^ 24 ^^^ 131072) * 2 ^ 24 + ip % 2 ^ 24) / 2 ^ 16 % 256 =
      ip / 2 ^ 16 % 256 := by omega
  have e3 : ((ip / 2 ^ 40 % 2 ^ 24 ^^^ 131072) * 2 ^ 24 + ip % 2 ^ 24) / 2 ^ 24 % 256 =
      (ip / 2 ^ 40 % 2 ^ 24 ^^^ 131072) % 256 := by omega
  have e2 : ((ip / 2 ^ 40 % 2 ^ 24 ^^^ 131072) * 2 ^ 24 + ip % 2 ^ 24) / 2 ^ 32 % 256 =
      (ip / 2 ^ 40 % 2 ^ 24 ^^^ 131072) / 2 ^ 8 % 256 := by omega
  have e1 : ((ip / 2 ^ 40 % 2 ^ 24 ^^^ 131072) * 2 ^ 24 + ip % 2 ^ 24) / 2 ^ 40 % 256 =
      (ip / 2 ^ 40 % 2 ^ 24 ^^^ 131072) / 2 ^ 16 % 256 := by omega
  rw [e1, e2, e3, e4, e5, e6, macByte0, macByte1, macByte2]

/-- C4 counterexample: an address whose Interface-ID bytes 3 and 4 are
`0xFF, 0xFF` — not the EUI-64 pattern `0xFF, 0xFE` — still triggers the MAC
recovery, because the code only tests `(ip & mask) == mask`, which ignores
the zero bit of `0xFE`. -/
theorem c4_counterexample :
    macExtract 0xFFFF000000 = some "02:00:00:00:00:00" ∧
    ¬ specEuiPattern 0xFFFF000000 :=
  ⟨rfl, by decide⟩

/-- C4 amended: the Decomposer attempts MAC recovery exactly when
`(ip & 0x00FF_FE00_0000) == 0x00FF_FE00_0000`, i.e. when byte 3 of the low 64
bits is `0xFF` and byte 4 is at least `0xFE` — a strictly weaker test than the
claimed bytes `0xFF, 0xFE`; whenever it triggers, the recovered MAC equals the
claimed transform (high 24 bits of the Interface ID with bit 1 of the first
byte flipped, concatenated with the low 24 bits, six lowercase
colon-separated octets). -/
theorem c4_amended (ip : Nat) :
    macExtract ip =
      if ip / 2 ^ 32 % 256 = 255 ∧ 254 ≤ ip / 2 ^ 24 % 256
      then some (specMacStr ip) else none := by
  have hcond : (ip &&& eui64Mask = eui64Mask) ↔
      (ip / 2 ^ 32 % 256 = 255 ∧ 254 ≤ ip / 2 ^ 24 % 256) := by
    have h1 : (eui64Mask : Nat) = 0x7FFF <<< 25 := rfl
    rw [h1, land_shiftLeft, Nat.shiftLeft_eq, Nat.shiftLeft_eq]
    have h2 : ((ip >>> 25) &&& 0x7FFF) = (ip >>> 25) % 2 ^ 15 := by
      rw [show (0x7FFF : Nat) = 2 ^ 15 - 1 from rfl, Nat.and_pow_two_sub_one_eq_mod]
    rw [h2, Nat.shiftRight_eq_div_pow]
    omega
  unfold macExtract
  by_cases h : ip &&& eui64Mask = eui64Mask
  · rw [if_pos (by simpa using h), if_pos (hcond.mp h), macOfIp_eq_spec]
  · rw [if_neg (by simpa using h), if_neg (fun hc => h (hcond.mpr hc))]

/-! ### Nibble lemmas for the ULA claim -/

theorem nibG3 (ip s t : Nat) (h : 2 ^ s * 4096 = 2 ^ t) :
    ip / 2 ^ s % 65536 / 4096 % 16 = ip / 2 ^ t % 16 := by
  have h1 : ip / 2 ^ s % 65536 / 4096 % 16 = ip / 2 ^ s / 4096 % 16 := by omega
  rw [h1, Nat.div_div_eq_div_mul, h]

theorem nibG2 (ip s t : Nat) (h : 2 ^ s * 256 = 2 ^ t) :
    ip / 2 ^ s % 65536 / 256 % 16 = ip / 2 ^ t % 16 := by
  have h1 : ip / 2 ^ s % 65536 / 256 % 16 = ip / 2 ^ s / 256 % 16 := by omega
  rw [h1, Nat.div_div_eq_div_mul, h]

theorem nibG1 (ip s t : Nat) (h : 2 ^ s * 16 = 2 ^ t) :
    ip / 2 ^ s % 65536 / 16 % 16 = ip / 2 ^ t % 16 := by
  have h1 : ip / 2 ^ s % 65536 / 16 % 16 = ip / 2 ^ s / 16 % 16 := by omega
  rw [h1, Nat.div_div_eq_div_mul, h]

theorem nibG0 (ip s : Nat) : ip / 2 ^ s % 65536 % 16 = ip / 2 ^ s % 16 := by omega

/-- C6: for every address in the Unique-Local block the Decomposer emits a
Global ID that is exactly bits 8 to 47 of the address (counted from the
most-significant bit, right after the 8-bit ULA marker) and a Subnet ID that
is exactly bits 48 to 63 — for any `tail` the exploded rendering appends, and
with no reference to the Allocation Table (the decomposition is fixed). -/
theorem c6_ula_fields (ip : Nat) (_h : ip < 2 ^ 128) (tail : List Char)
    (hu : inBlock ulaBlock ip = true) :
    ulaDecomp ip tail = some (specGidChars ip, specSidChars ip) := by
  have hda : ulaDecomp ip tail = some (ulaGid ip tail, ulaSid ip tail) := by
    simp [ulaDecomp, hu]
  rw [hda]
  have hg : ulaGid ip tail =
      [Nat.digitChar (ip / 2 ^ 112 % 65536 / 16 % 16),
       Nat.digitChar (ip / 2 ^ 112 % 65536 % 16), ':',
       Nat.digitChar (ip / 2 ^ 96 % 65536 / 4096 % 16),
       Nat.digitChar (ip / 2 ^ 96 % 65536 / 256 % 16),
       Nat.digitChar (ip / 2 ^ 96 % 65536 / 16 % 16),
       Nat.digitChar (ip / 2 ^ 96 % 65536 % 16), ':',
       Nat.digitChar (ip / 2 ^ 80 % 65536 / 4096 % 16),
       Nat.digitChar (ip / 2 ^ 80 % 65536 / 256 % 16),
       Nat.digitChar (ip / 2 ^ 80 % 65536 / 16 % 16),
       Nat.digitChar (ip / 2 ^ 80 % 65536 % 16)] := rfl
  have hs : ulaSid ip tail =
      [Nat.digitChar (ip / 2 ^ 64 % 65536 / 4096 % 16),
       Nat.digitChar (ip / 2 ^ 64 % 65536 / 256 % 16),
       Nat.digitChar (ip / 2 ^ 64 % 65536 / 16 % 16),
       Nat.digitChar (ip / 2 ^ 64 % 65536 % 16)] := rfl
  rw [hg, hs,
      nibG1 ip 112 116 (by norm_num), nibG0 ip 112,
      nibG3 ip 96 108 (by norm_num), nibG2 ip 96 104 (by norm_num),
      nibG1 ip 96 100 (by norm_num), nibG0 ip 96,
      nibG3 ip 80 92 (by norm_num), nibG2 ip 80 88 (by norm_num),
      nibG1 ip 80 84 (by norm_num), nibG0 ip 80,
      nibG3 ip 64 76 (by norm_num), nibG2 ip 64 72 (by norm_num),
      nibG1 ip 64 68 (by norm_num), nibG0 ip 64]
  rfl

/-- Witness for C6 at `fd91:f453:ed1f:0:a02a:7d9e:7da:40d2`. -/
theorem c6_ula_fields_witness :
    ulaDecomp c6Ip [] = some (specGidChars c6Ip, specSidChars c6Ip) :=
  c6_ula_fields c6Ip (by unfold c6Ip; norm_num) [] (by decide)

/-! ### Chain congruence lemmas for the embedded-IPv4 claim -/

theorem inBlock_low_congr (b : Block) (ip c : Nat) (h : ip / 2 ^ 32 = c)
    (hp : b.plen ≤ 96) (ha : b.network % 2 ^ (128 - b.plen) = 0) :
    inBlock b ip = inBlock b (c * 2 ^ 32) := by
  obtain ⟨k, hk⟩ := Nat.dvd_of_mod_eq_zero ha
  have hm : (2 : Nat) ^ (128 - b.plen) = 2 ^ 32 * 2 ^ (96 - b.plen) := by
    rw [← pow_add]
    congr 1
    omega
  have hone : 1 ≤ (2 : Nat) ^ (96 - b.plen) := Nat.one_le_two_pow
  simp only [inBlock, decide_eq_decide]
  rw [hk, hm]
  have hassoc : 2 ^ 32 * 2 ^ (96 - b.plen) * k = 2 ^ 32 * (2 ^ (96 - b.plen) * k) := by ring
  rw [hassoc]
  generalize (2 : Nat) ^ (96 - b.plen) * k = q at *
  generalize hM : (2 : Nat) ^ (96 - b.plen) = M at hone ⊢
  omega

theorem inBlock_high_false (b : Block) (ip c : Nat) (h : ip / 2 ^ 32 = c)
    (hp : 96 < b.plen) (hb : b.plen ≤ 128)
    (h1 : b.network / 2 ^ 32 ≠ c) (h2 : b.network / 2 ^ 32 + 1 ≠ c) :
    inBlock b ip = false := by
  simp only [inBlock, decide_eq_false_iff_not, not_and, not_le]
  intro l1
  have hs : (2 : Nat) ^ (128 - b.plen) ≤ 2 ^ 32 :=
    Nat.pow_le_pow_right (by norm_num) (by omega)
  generalize hP : (2 : Nat) ^ (128 - b.plen) = P at hs ⊢
  omega

theorem chain_div32_congr (c : Nat)
    (hfacts : ∀ b ∈ allocations,
      (b.plen ≤ 96 ∧ b.network % 2 ^ (128 - b.plen) = 0) ∨
      (96 < b.plen ∧ b.plen ≤ 128 ∧ b.network / 2 ^ 32 ≠ c ∧ b.network / 2 ^ 32 + 1 ≠ c ∧
        inBlock b (c * 2 ^ 32) = false))
    (ip : Nat) (h : ip / 2 ^ 32 = c) :
    chain ip = chain (c * 2 ^ 32) := by
  unfold chain chainOn
  apply List.filter_congr
  intro b hb
  rcases hfacts b hb with ⟨hp, ha⟩ | ⟨hp, hb128, h1, h2, hfalse⟩
  · exact inBlock_low_congr b ip c h hp ha
  · rw [inBlock_high_false b ip c h hp hb128 h1 h2, hfalse]

/-- C5 counterexample: `64:ff9b::192.168.1.200` lies in the NAT64 well-known
prefix (its only containing block is the `IPv4-IPv6 Translat.` entry) and its
low 32 bits are `192.168.1.200`, yet the Decomposer renders no embedded IPv4:
the code tests only membership in the IPv4-mapped block `::ffff:0:0/96`. -/
theorem c5_counterexample :
    (chain c5Nat64Ip).map (fun b => b.name) = ["IPv4-IPv6 Translat."] ∧
    c5Nat64Ip % 2 ^ 32 = 0xC0A801C8 ∧
    ip4Str (c5Nat64Ip % 2 ^ 32) = "192.168.1.200" ∧
    embeddedIPv4 allocations c5Nat64Ip = none :=
  ⟨rfl, rfl, rfl, rfl⟩

/-- C5 amended: the Decomposer renders the low 32 bits as a dotted-decimal
IPv4 address exactly for addresses in the IPv4-mapped block `::ffff:0:0/96`;
addresses in the NAT64 block `64:ff9b::/96` (those with
`ip / 2 ^ 32 = 0x64ff9b << 64`) get no embedded IPv4 rendering. -/
theorem c5_amended :
    (∀ ip : Nat, inBlock ip4Block ip = true →
      embeddedIPv4 allocations ip = some (ip4Str (ip % 2 ^ 32))) ∧
    (∀ ip : Nat, ip / 2 ^ 32 = 0x64ff9b0000000000000000 →
      embeddedIPv4 allocations ip = none) := by
  constructor
  · intro ip hip
    have h32 : ip / 2 ^ 32 = 65535 := by
      have hn : ip4Block.network = 0xFFFF00000000 := rfl
      have hp : ip4Block.plen = 96 := rfl
      simp only [inBlock, hn, hp, decide_eq_true_eq] at hip
      omega
    have hfacts := (by decide : ∀ b ∈ allocations,
      (b.plen ≤ 96 ∧ b.network % 2 ^ (128 - b.plen) = 0) ∨
      (96 < b.plen ∧ b.plen ≤ 128 ∧ b.network / 2 ^ 32 ≠ 65535 ∧
        b.network / 2 ^ 32 + 1 ≠ 65535 ∧ inBlock b (65535 * 2 ^ 32) = false))
    have hch := chain_div32_congr 65535 hfacts ip h32
    have hlp : lastPl allocations ip = 96 := by
      unfold lastPl
      show (chain ip).foldl _ 0 = 96
      rw [hch]
      decide
    simp only [embeddedIPv4, hlp, hip]
    norm_num
  · intro ip h32
    have hfacts := (by decide : ∀ b ∈ allocations,
      (b.plen ≤ 96 ∧ b.network % 2 ^ (128 - b.plen) = 0) ∨
      (96 < b.plen ∧ b.plen ≤ 128 ∧ b.network / 2 ^ 32 ≠ 0x64ff9b0000000000000000 ∧
        b.network / 2 ^ 32 + 1 ≠ 0x64ff9b0000000000000000 ∧
        inBlock b (0x64ff9b0000000000000000 * 2 ^ 32) = false))
    have hch := chain_div32_congr 0x64ff9b0000000000000000 hfacts ip h32
    have hlp : lastPl allocations ip = 96 := by
      unfold lastPl
      show (chain ip).foldl _ 0 = 96
      rw [hch]
      decide
    have hip4 : inBlock ip4Block ip = false := by
      rw [inBlock_low_congr ip4Block ip 0x64ff9b0000000000000000 h32 (by decide) (by decide)]
      decide
    simp only [embeddedIPv4, hlp, hip4]
    norm_num


/-- Witness for C5 amended: the mapped form of 192.168.1.200 renders
`192.168.1.200`; the NAT64 form renders nothing. -/
theorem c5_amended_witness :
    inBlock ip4Block c5MappedIp = true ∧
    embeddedIPv4 allocations c5MappedIp = some (ip4Str (c5MappedIp % 2 ^ 32)) ∧
    ip4Str (c5MappedIp % 2 ^ 32) = "192.168.1.200" ∧
    c5Nat64Ip / 2 ^ 32 = 0x64ff9b0000000000000000 ∧
    embeddedIPv4 allocations c5Nat64Ip = none :=
  ⟨by decide, c5_amended.1 c5MappedIp (by decide), rfl, rfl,
   c5_amended.2 c5Nat64Ip rfl⟩

/-- C8: every input string that fails IPv6 parsing produces an inline
per-address report `Invalid IPv6 address: ADDRESS.  DETAIL`, the loop still
produces one output per input (processing continues past the failure), and
the run completes with exit status 0 — a malformed address is never fatal.
Stated with the whois collaborator returning no records, so that augmentation
leaves the table unchanged. -/
theorem c8_invalid_nonfatal (w : String → Option WhoisRec) (hw : ∀ s, w s = none)
    (n : Nat) (addrs : List String) :
    mainLoop w (n + 1) addrs allocations =
      some (.ok (addrs.map stepNoWhois, allocations)) ∧
    exitCode (mainLoop w (n + 1) addrs allocations) = some 0 ∧
    (∀ s e, pyParseItf s = .error e →
      stepNoWhois s = .invalid ("Invalid IPv6 address: " ++ pyRepr s ++ ".  " ++ e.text)) := by
  have haddOrg : ∀ (a : String) (t : List Block), addOrg w (n + 1) a t = some (.ok t) := by
    intro a t
    simp [addOrg, hw]
  have hproc : ∀ s, processOne w (n + 1) allocations s =
      some (.ok (stepNoWhois s, allocations)) := by
    intro s
    unfold processOne stepNoWhois
    cases hp : pyParseItf s with
    | error e => simp [hp]
    | ok itf =>
      by_cases hg : inBlock guaBlock itf.ip <;> simp [hp, hg, haddOrg]
  have hloop : ∀ (l : List String),
      mainLoop w (n + 1) l allocations = some (.ok (l.map stepNoWhois, allocations)) := by
    intro l
    induction l with
    | nil => rfl
    | cons s rest ih => simp [mainLoop, hproc, ih]
  refine ⟨hloop addrs, ?_, ?_⟩
  · rw [hloop addrs]
    rfl
  · intro s e hp
    unfold stepNoWhois
    rw [hp]
    rfl

/-- Witness for C8 on a batch whose first address is malformed. -/
theorem c8_invalid_nonfatal_witness :
    mainLoop (fun _ => none) 1 ["not-an-address", "::1"] allocations =
      some (.ok ([stepNoWhois "not-an-address", stepNoWhois "::1"], allocations)) ∧
    exitCode (mainLoop (fun _ => none) 1 ["not-an-address", "::1"] allocations) = some 0 ∧
    (∀ s e, pyParseItf s = .error e →
      stepNoWhois s = .invalid ("Invalid IPv6 address: " ++ pyRepr s ++ ".  " ++ e.text)) :=
  c8_invalid_nonfatal (fun _ => none) (fun _ => rfl) 0 ["not-an-address", "::1"]

end IPv6Decode
